import Mathlib

/-!
Verification of the ASM patch handler of lepelog/sshd-rando
(`src/patches/asmpatchhandler.py`), as a shallow embedding in Lean 4.

Bytes are modelled as `Nat` (reduced mod 256 where the code packs them),
byte buffers as `List Nat`, and the growable NSO image as a byte store
`Nat → Nat`.  Helpers of the repository that are not shown in `src/`
(`sslib.fs_helpers`, `patches.asmpatchhelper`, the constants modules) and
the third-party `lz4.block` codec are modelled from the specification;
each such definition carries a doc comment saying so.
-/

set_option maxHeartbeats 1000000

namespace SshdRando

/-! ## Little-endian encoding helpers -/

/-- Little-endian 4-byte encoding of `n % 2^32` (the `struct.pack "<I"` layout). -/
def u32le (n : Nat) : List Nat :=
  [n % 256, n / 256 % 256, n / 65536 % 256, n / 16777216 % 256]

/-- Little-endian 2-byte encoding of `n % 2^16` (the `struct.pack "<H"` layout). -/
def u16le (n : Nat) : List Nat :=
  [n % 256, n / 256 % 256]

theorem u32le_length (n : Nat) : (u32le n).length = 4 := rfl

theorem u16le_length (n : Nat) : (u16le n).length = 2 := rfl

/-! ## Codec (spec-modelled `lz4.block`)

`lz4.block.compress` / `lz4.block.decompress` are a third-party library,
not code of this repository.  They are modelled from the spec: block
compression whose output carries a 4-byte size header, and the inverse
that is handed the decompressed size instead of that header. -/

/-- LZ4 length-extension bytes for a length nibble of 15: a run of `0xFF`
bytes followed by one byte below `0xFF`, summing to the encoded value. -/
def extBytes (k : Nat) : List Nat :=
  List.replicate (k / 255) 255 ++ [k % 255]

/-- Read LZ4 length-extension bytes: add each `0xFF`, stop at the first
byte below `0xFF`.  Returns the accumulated length and the rest. -/
def readExt : List Nat → Nat → Option (Nat × List Nat)
  | [], _ => none
  | b :: rest, acc => if b = 255 then readExt rest (acc + 255) else some ((acc + b), rest)

/-- Copy `n` bytes of match history from `offset` bytes back, byte by byte
(LZ4 overlapping-match semantics). -/
def matchCopy (out : List Nat) (offset : Nat) : Nat → List Nat
  | 0 => out
  | n + 1 => matchCopy (out ++ [out.getD (out.length - offset) 0]) offset n

/-- Modelled from the spec: the LZ4 raw-block decoder.  Each sequence is a
token byte (high nibble literal length, low nibble match length − 4), the
literal bytes, and — except for the final, literals-only sequence — a
2-byte little-endian match offset and the match copy.  `fuel` bounds the
number of sequences; one token byte is consumed per sequence, so an
initial fuel of `input.length + 1` never runs out on valid input. -/
def lz4DecodeBlock : Nat → List Nat → List Nat → Option (List Nat)
  | 0, _, _ => none
  | _ + 1, [], _ => none
  | fuel + 1, t :: rest, out =>
    (if t / 16 = 15 then readExt rest 15 else some (t / 16, rest)).bind fun p =>
      if p.1 ≤ p.2.length then
        let out2 := out ++ p.2.take p.1
        match p.2.drop p.1 with
        | [] => some out2
        | [_] => none
        | o1 :: o2 :: rest2 =>
          (if t % 16 = 15 then readExt rest2 (15 + 4) else some (t % 16 + 4, rest2)).bind
            fun q =>
              if o1 + 256 * o2 = 0 ∨ out2.length < o1 + 256 * o2 then none
              else lz4DecodeBlock fuel q.2 (matchCopy out2 (o1 + 256 * o2) q.1)
      else none

/-- Modelled from the spec: `lz4.block` compression.  The block encoder is
a valid literals-only LZ4 block (one final sequence holding the whole
input as literals); the library prepends a 4-byte little-endian size
header, which the caller of this repository strips. -/
def lz4_block_compress (x : List Nat) : List Nat :=
  u32le x.length ++
    (if x.length < 15 then x.length * 16 :: x
     else 15 * 16 :: (extBytes (x.length - 15) ++ x))

/-- Modelled from the spec: `lz4.block` decompression of a raw block (no
size header), given the expected decompressed size; fails on malformed
input or when the decoded size differs from the expected one. -/
def lz4_block_decompress (data : List Nat) (size : Nat) : Option (List Nat) :=
  (lz4DecodeBlock (data.length + 1) data []).bind fun out =>
    if out.length = size then some out else none

/-! ## `ASMPatchHandler.compress` / `ASMPatchHandler.decompress` -/

namespace ASMPatchHandler

/-- `ASMPatchHandler.compress`: lz4 compression with the 4-byte size
header trimmed off the start. -/
def compress (data : List Nat) : List Nat :=
  (lz4_block_compress data).drop 4

/-- `ASMPatchHandler.decompress`: lz4 decompression at the recorded size. -/
def decompress (data : List Nat) (size : Nat) : Option (List Nat) :=
  lz4_block_decompress data size

end ASMPatchHandler

example : ASMPatchHandler.decompress (ASMPatchHandler.compress [1, 2, 3]) 3 =
    some [1, 2, 3] := by decide

example : ASMPatchHandler.decompress
    (ASMPatchHandler.compress (List.replicate 20 7)) 20 =
    some (List.replicate 20 7) := by decide

theorem readExt_replicate (q : Nat) : ∀ (acc r : Nat) (rest : List Nat), r < 255 →
    readExt (List.replicate q 255 ++ r :: rest) acc = some (acc + (255 * q + r), rest) := by
  induction q with
  | zero =>
    intro acc r rest hr
    simp [readExt, Nat.ne_of_lt hr]
  | succ n ih =>
    intro acc r rest hr
    rw [List.replicate_succ, List.cons_append]
    show readExt (255 :: (List.replicate n 255 ++ r :: rest)) acc = _
    rw [readExt, if_pos rfl, ih (acc + 255) r rest hr]
    have harith : acc + 255 + (255 * n + r) = acc + (255 * (n + 1) + r) := by ring
    rw [harith]

theorem readExt_extBytes (k acc : Nat) (rest : List Nat) :
    readExt (extBytes k ++ rest) acc = some (acc + k, rest) := by
  rw [extBytes, List.append_assoc, List.singleton_append,
    readExt_replicate (k / 255) acc (k % 255) rest (Nat.mod_lt _ (by omega))]
  have harith : 255 * (k / 255) + k % 255 = k := Nat.div_add_mod k 255
  rw [harith]

theorem drop4_u32le (n : Nat) (l : List Nat) : (u32le n ++ l).drop 4 = l := by
  have h := List.drop_left (u32le n) l
  rwa [u32le_length n] at h

/-- C1: for every byte sequence `x`, `decompress (compress x) x.length = some x`:
the repository's `compress` strips the codec's 4-byte size header and
`decompress`, handed the original length in its place, restores `x` exactly. -/
theorem decompress_compress_roundtrip (x : List Nat) :
    ASMPatchHandler.decompress (ASMPatchHandler.compress x) x.length = some x := by
  rw [ASMPatchHandler.decompress, ASMPatchHandler.compress, lz4_block_compress,
    lz4_block_decompress]
  by_cases h : x.length < 15
  · rw [if_pos h, drop4_u32le]
    show (lz4DecodeBlock (x.length + 1 + 1) (x.length * 16 :: x) []).bind _ = _
    rw [lz4DecodeBlock]
    have h16 : x.length * 16 / 16 = x.length := Nat.mul_div_cancel _ (by omega)
    rw [h16, if_neg (by omega)]
    simp [List.take_length, List.drop_length]
  · rw [if_neg h, drop4_u32le]
    have hlen : (15 * 16 :: (extBytes (x.length - 15) ++ x)).length =
        (extBytes (x.length - 15)).length + x.length + 1 := by
      simp [List.length_cons, List.length_append]
    rw [hlen]
    rw [lz4DecodeBlock]
    have h16 : 15 * 16 / 16 = 15 := by norm_num
    rw [h16, if_pos rfl, readExt_extBytes]
    have harith : 15 + (x.length - 15) = x.length := by omega
    rw [harith]
    simp [List.take_length, List.drop_length]

/-! ## Segment buffers and the diff applier -/

/-- In-place overwrite of `p` into `buf` starting at byte `o` (the effect
of a seek-then-write on an in-memory buffer, when it stays in bounds). -/
def overwrite (buf : List Nat) (o : Nat) (p : List Nat) : List Nat :=
  buf.take o ++ p ++ buf.drop (o + p.length)

/-- Modelled from the spec: `sslib.fs_helpers.write_bytes` applied to a
fixed-size decompressed segment buffer; a write reaching past the segment
end (or at a negative offset) is an out-of-bounds write and fails instead
of growing the buffer. -/
def write_bytes (buf : List Nat) (o : Int) (p : List Nat) : Option (List Nat) :=
  if 0 ≤ o ∧ o.toNat + p.length ≤ buf.length then some (overwrite buf o.toNat p) else none

/-- Modelled from the spec: `patches.asmpatchhelper.NsoOffsets`, the
ascending segment boundaries of the relative address space. -/
structure NsoOffsets where
  text_offset : Nat
  rodata_offset : Nat
  data_offset : Nat
deriving Repr, DecidableEq

/-- The three decompressed segment buffers of one container. -/
structure Segments where
  text : List Nat
  rodata : List Nat
  data : List Nat
deriving Repr, DecidableEq

namespace ASMPatchHandler

/-- `ASMPatchHandler.write_patch`: classify the relative offset against
the offset-table boundaries, convert to a segment-local offset and
overwrite the payload bytes there. -/
def write_patch (relative_offset : Nat) (offsets : NsoOffsets) (segs : Segments)
    (data : List Nat) : Option Segments :=
  if relative_offset < offsets.rodata_offset then
    (write_bytes segs.text ((relative_offset : Int) - offsets.text_offset) data).map
      fun t => { segs with text := t }
  else if relative_offset < offsets.data_offset then
    (write_bytes segs.rodata ((relative_offset : Int) - offsets.rodata_offset) data).map
      fun r => { segs with rodata := r }
  else
    (write_bytes segs.data ((relative_offset : Int) - offsets.data_offset) data).map
      fun d => { segs with data := d }

end ASMPatchHandler

example : ASMPatchHandler.write_patch 101 ⟨0, 100, 200⟩ ⟨[0, 0], [1, 1, 1], [2]⟩ [9] =
    some ⟨[0, 0], [1, 9, 1], [2]⟩ := by decide

example : ASMPatchHandler.write_patch 103 ⟨0, 100, 200⟩ ⟨[0, 0], [1, 1, 1], [2]⟩ [9] =
    none := by decide

theorem overwrite_length (buf p : List Nat) (o : Nat) (h : o + p.length ≤ buf.length) :
    (overwrite buf o p).length = buf.length := by
  simp only [overwrite, List.length_append, List.length_take, List.length_drop]
  omega

theorem overwrite_getD (buf p : List Nat) (o : Nat) (h : o + p.length ≤ buf.length) (i : Nat) :
    (overwrite buf o p).getD i 0 =
      if o ≤ i ∧ i < o + p.length then p.getD (i - o) 0 else buf.getD i 0 := by
  have hto : (buf.take o).length = o := by
    rw [List.length_take]
    omega
  simp only [List.getD_eq_getElem?_getD]
  rw [overwrite, List.append_assoc, List.getElem?_append, List.getElem?_append, hto]
  by_cases h1 : i < o
  · rw [if_pos h1, List.getElem?_take_of_lt h1, if_neg (by omega)]
  · by_cases h2 : i < o + p.length
    · rw [if_neg h1, if_pos (by omega), if_pos ⟨by omega, h2⟩]
    · rw [if_neg h1, if_neg (by omega), if_neg (by omega), List.getElem?_drop]
      have hidx : o + p.length + (i - o - p.length) = i := by omega
      rw [hidx]

/-- C3: a diff whose payload resolves past the end of its segment's
fixed-size decompressed buffer makes `write_patch` fail with no modified
segments; the write is never truncated, wrapped, or satisfied by growing
the buffer. -/
theorem write_patch_out_of_bounds (ro : Nat) (off : NsoOffsets) (segs : Segments)
    (p : List Nat)
    (hoob : if ro < off.rodata_offset then
        (segs.text.length : Int) < (ro : Int) - off.text_offset + p.length
      else if ro < off.data_offset then
        (segs.rodata.length : Int) < (ro : Int) - off.rodata_offset + p.length
      else (segs.data.length : Int) < (ro : Int) - off.data_offset + p.length) :
    ASMPatchHandler.write_patch ro off segs p = none := by
  by_cases h1 : ro < off.rodata_offset
  · rw [if_pos h1] at hoob
    rw [ASMPatchHandler.write_patch, if_pos h1, write_bytes, if_neg (by omega)]
    rfl
  · rw [if_neg h1] at hoob
    by_cases h2 : ro < off.data_offset
    · rw [if_pos h2] at hoob
      rw [ASMPatchHandler.write_patch, if_neg h1, if_pos h2, write_bytes, if_neg (by omega)]
      rfl
    · rw [if_neg h2] at hoob
      rw [ASMPatchHandler.write_patch, if_neg h1, if_neg h2, write_bytes, if_neg (by omega)]
      rfl

/-- Witness for C3 at a concrete out-of-bounds diff. -/
theorem write_patch_out_of_bounds_witness :
    ASMPatchHandler.write_patch 103 ⟨0, 100, 200⟩ ⟨[0, 0], [1, 1, 1], [2]⟩ [9] = none :=
  write_patch_out_of_bounds 103 ⟨0, 100, 200⟩ ⟨[0, 0], [1, 1, 1], [2]⟩ [9] (by decide)

/-- C6: with ascending boundaries, `write_patch` classifies an address
strictly below `rodata_offset` to text, strictly below `data_offset` to
rodata, and otherwise to data; a successful write changes only the
classified segment, an in-bounds write replaces exactly the payload range
at the segment-local offset obtained by subtracting the matching boundary,
and every byte outside the overwritten range keeps its previous value. -/
theorem write_patch_classifies (off : NsoOffsets) (segs : Segments)
    (h1 : off.text_offset < off.rodata_offset) (h2 : off.rodata_offset < off.data_offset) :
    (∀ ro p s', ro < off.rodata_offset →
      ASMPatchHandler.write_patch ro off segs p = some s' →
      s'.rodata = segs.rodata ∧ s'.data = segs.data) ∧
    (∀ ro p s', off.rodata_offset ≤ ro → ro < off.data_offset →
      ASMPatchHandler.write_patch ro off segs p = some s' →
      s'.text = segs.text ∧ s'.data = segs.data) ∧
    (∀ ro p s', off.data_offset ≤ ro →
      ASMPatchHandler.write_patch ro off segs p = some s' →
      s'.text = segs.text ∧ s'.rodata = segs.rodata) ∧
    (∀ ro p, off.text_offset ≤ ro → ro < off.rodata_offset →
      ro - off.text_offset + p.length ≤ segs.text.length →
      ASMPatchHandler.write_patch ro off segs p =
        some ⟨overwrite segs.text (ro - off.text_offset) p, segs.rodata, segs.data⟩) ∧
    (∀ ro p, off.rodata_offset ≤ ro → ro < off.data_offset →
      ro - off.rodata_offset + p.length ≤ segs.rodata.length →
      ASMPatchHandler.write_patch ro off segs p =
        some ⟨segs.text, overwrite segs.rodata (ro - off.rodata_offset) p, segs.data⟩) ∧
    (∀ ro p, off.data_offset ≤ ro →
      ro - off.data_offset + p.length ≤ segs.data.length →
      ASMPatchHandler.write_patch ro off segs p =
        some ⟨segs.text, segs.rodata, overwrite segs.data (ro - off.data_offset) p⟩) ∧
    (∀ (buf q : List Nat) (o : Nat), o + q.length ≤ buf.length →
      (overwrite buf o q).length = buf.length ∧
      (∀ j, j < q.length → (overwrite buf o q).getD (o + j) 0 = q.getD j 0) ∧
      (∀ i, i < o ∨ o + q.length ≤ i → (overwrite buf o q).getD i 0 = buf.getD i 0)) := by
  refine ⟨?_, ?_, ?_, ?_, ?_, ?_, ?_⟩
  · intro ro p s' hlt hw
    rw [ASMPatchHandler.write_patch, if_pos hlt] at hw
    simp only [Option.map_eq_some'] at hw
    obtain ⟨t, -, ht⟩ := hw
    rw [← ht]
    exact ⟨rfl, rfl⟩
  · intro ro p s' hge hlt hw
    rw [ASMPatchHandler.write_patch, if_neg (by omega), if_pos hlt] at hw
    simp only [Option.map_eq_some'] at hw
    obtain ⟨r, -, hr⟩ := hw
    rw [← hr]
    exact ⟨rfl, rfl⟩
  · intro ro p s' hge hw
    rw [ASMPatchHandler.write_patch, if_neg (by omega), if_neg (by omega)] at hw
    simp only [Option.map_eq_some'] at hw
    obtain ⟨d, -, hd⟩ := hw
    rw [← hd]
    exact ⟨rfl, rfl⟩
  · intro ro p hge hlt hb
    have htn : ((ro : Int) - off.text_offset).toNat = ro - off.text_offset := by omega
    rw [ASMPatchHandler.write_patch, if_pos hlt, write_bytes, htn,
      if_pos ⟨by omega, by omega⟩]
    rfl
  · intro ro p hge hlt hb
    have htn : ((ro : Int) - off.rodata_offset).toNat = ro - off.rodata_offset := by omega
    rw [ASMPatchHandler.write_patch, if_neg (by omega), if_pos hlt, write_bytes, htn,
      if_pos ⟨by omega, by omega⟩]
    rfl
  · intro ro p hge hb
    have htn : ((ro : Int) - off.data_offset).toNat = ro - off.data_offset := by omega
    rw [ASMPatchHandler.write_patch, if_neg (by omega), if_neg (by omega), write_bytes, htn,
      if_pos ⟨by omega, by omega⟩]
    rfl
  · intro buf q o hb
    refine ⟨overwrite_length buf q o hb, ?_, ?_⟩
    · intro j hj
      rw [overwrite_getD buf q o hb, if_pos ⟨by omega, by omega⟩]
      congr 1
      omega
    · intro i hi
      rw [overwrite_getD buf q o hb, if_neg (by omega)]

/-- Witness for C6 at a concrete in-range, in-bounds diff. -/
theorem write_patch_classifies_witness :
    ASMPatchHandler.write_patch 1 ⟨0, 100, 200⟩ ⟨[5, 6], [7], [8]⟩ [9] =
      some ⟨overwrite [5, 6] 1 [9], [7], [8]⟩ :=
  (write_patch_classifies ⟨0, 100, 200⟩ ⟨[5, 6], [7], [8]⟩ (by decide) (by decide)).2.2.2.1
    1 [9] (by decide) (by decide) (by decide)

/-! ## Diff entries and conditional groups

A parsed top-level entry of a diff file: a key that is an integer is a
relative address with its payload, any other key is a condition name over
a nested address-to-payload map (one level of nesting, as in the source's
`type(relative_offset) is not int` dispatch). -/

inductive DiffEntry where
  | uncond (addr : Nat) (payload : List Nat)
  | onlyif (condition : String) (nested : List (Nat × List Nat))
deriving Repr, DecidableEq

namespace ASMPatchHandler

/-- One iteration of `patch_asm`'s diff loop: apply a top-level diff entry
to the three segment buffers.  The condition gate (`evaluate_onlyif`) is
the external Condition Gate; the returned list records, in order, every
condition name the gate was queried for. -/
def applyDiffEntry (gate : String → Bool) (off : NsoOffsets) (segs : Segments) :
    DiffEntry → Option Segments × List String
  | .uncond addr payload => (write_patch addr off segs payload, [])
  | .onlyif condition nested =>
    if gate condition then
      (nested.foldlM (fun s ap => write_patch ap.1 off s ap.2) segs, [condition])
    else (some segs, [condition])

end ASMPatchHandler

example : ASMPatchHandler.applyDiffEntry (fun _ => false) ⟨0, 100, 200⟩
    ⟨[0, 0], [1], [2]⟩ (.onlyif "cond_a" [(1, [0xAA])]) = (some ⟨[0, 0], [1], [2]⟩, ["cond_a"]) := by
  decide

example : ASMPatchHandler.applyDiffEntry (fun _ => true) ⟨0, 100, 200⟩
    ⟨[0, 0], [1], [2]⟩ (.onlyif "cond_a" [(1, [0xAA])]) =
    (some ⟨[0, 0xAA], [1], [2]⟩, ["cond_a"]) := by
  decide

/-- C7: a diff entry whose key is not an address is a conditional group:
the Condition Gate is queried exactly once for the group; when it answers
`false` no segment byte changes, and when it answers `true` every nested
entry is applied with the same classify-and-write logic as unconditional
diffs, in order. -/
theorem applyDiffEntry_onlyif (gate : String → Bool) (off : NsoOffsets)
    (segs : Segments) (condition : String) (nested : List (Nat × List Nat)) :
    (ASMPatchHandler.applyDiffEntry gate off segs (.onlyif condition nested)).2 =
      [condition] ∧
    (gate condition = false →
      (ASMPatchHandler.applyDiffEntry gate off segs (.onlyif condition nested)).1 =
        some segs) ∧
    (gate condition = true →
      (ASMPatchHandler.applyDiffEntry gate off segs (.onlyif condition nested)).1 =
        nested.foldlM
          (fun s ap =>
            (ASMPatchHandler.applyDiffEntry gate off s (.uncond ap.1 ap.2)).1) segs) := by
  refine ⟨?_, ?_, ?_⟩
  · rw [ASMPatchHandler.applyDiffEntry]
    by_cases hg : gate condition
    · rw [if_pos hg]
    · rw [if_neg hg]
  · intro hg
    rw [ASMPatchHandler.applyDiffEntry, if_neg (by simp [hg])]
  · intro hg
    rw [ASMPatchHandler.applyDiffEntry, if_pos hg]
    simp only [ASMPatchHandler.applyDiffEntry]

/-- Witness for C7: the spec's own example, `{"cond_a": {100: [0xAA]}}`,
left inert by a `false` gate and applied by a `true` gate. -/
theorem applyDiffEntry_onlyif_witness :
    (ASMPatchHandler.applyDiffEntry (fun _ => false) ⟨0, 100, 200⟩
        ⟨[0, 0], [1], [2]⟩ (.onlyif "cond_a" [(100, [0xAA])])).1 =
      some ⟨[0, 0], [1], [2]⟩ ∧
    (ASMPatchHandler.applyDiffEntry (fun _ => true) ⟨0, 100, 200⟩
        ⟨[0, 0], [1], [2]⟩ (.onlyif "cond_a" [(100, [0xAA])])).1 =
      some ⟨[0, 0], [0xAA], [2]⟩ :=
  ⟨(applyDiffEntry_onlyif (fun _ => false) ⟨0, 100, 200⟩ ⟨[0, 0], [1], [2]⟩
      "cond_a" [(100, [0xAA])]).2.1 rfl,
   by
    rw [(applyDiffEntry_onlyif (fun _ => true) ⟨0, 100, 200⟩ ⟨[0, 0], [1], [2]⟩
      "cond_a" [(100, [0xAA])]).2.2 rfl]
    decide⟩

/-! ## The NSO image

The whole container image lives in a growable in-memory buffer; it is
modelled as a total byte store `Nat → Nat` indexed by file offset. -/

/-- Overwrite `p` into the image at offset `o` (seek-then-write on the
growable image buffer). -/
def writeBytesImg (img : Nat → Nat) (o : Nat) (p : List Nat) : Nat → Nat :=
  fun i => if o ≤ i ∧ i < o + p.length then p.getD (i - o) 0 else img i

/-- Modelled from the spec: `sslib.fs_helpers.write_u32`, a little-endian
4-byte store (the packed value is reduced mod `2^32`). -/
def write_u32 (img : Nat → Nat) (o v : Nat) : Nat → Nat :=
  writeBytesImg img o (u32le v)

/-- Modelled from the spec: `sslib.fs_helpers.write_u8`, a 1-byte store. -/
def write_u8 (img : Nat → Nat) (o v : Nat) : Nat → Nat :=
  writeBytesImg img o [v % 256]

/-- Little-endian 4-byte read from the image. -/
def readU32 (img : Nat → Nat) (o : Nat) : Nat :=
  img o + 256 * img (o + 1) + 65536 * img (o + 2) + 16777216 * img (o + 3)

/-- Modelled from the spec: `patches.asmpatchhelper.SegmentHeader`, the
fixed-size (0x10-byte) per-segment record with `file_offset: u32` at
record offset 0, `decompressed_size: u32` at offset 8, and the opaque
trailing field `other` at offset 0xC. -/
structure SegmentHeader where
  file_offset : Nat
  decompressed_size : Nat
  other : Nat
deriving Repr, DecidableEq

/-- `SegmentHeader.SEGMENT_HEADER_SIZE`: each record is 0x10 bytes. -/
def SEGMENT_HEADER_SIZE : Nat := 16

/-- `SegmentHeader.bytes_to_segment_header` applied at record offset `o`. -/
def readSegmentHeader (img : Nat → Nat) (o : Nat) : SegmentHeader :=
  ⟨readU32 img o, readU32 img (o + 8), readU32 img (o + 12)⟩

/-- The three parsed segment headers of one container. -/
structure Headers where
  text : SegmentHeader
  rodata : SegmentHeader
  data : SegmentHeader
deriving Repr, DecidableEq

namespace ASMPatchHandler

/-- `ASMPatchHandler.get_segments`: the text, rodata and data headers are
three consecutive records starting at `SEGMENT_HEADER_SIZE`. -/
def get_segments (img : Nat → Nat) : Headers :=
  ⟨readSegmentHeader img SEGMENT_HEADER_SIZE,
   readSegmentHeader img (SEGMENT_HEADER_SIZE * 2),
   readSegmentHeader img (SEGMENT_HEADER_SIZE * 3)⟩

/-- The header-relocation step of `patch_asm` (the block following the
recompression): if the text segment grew, shift the rodata and data
file offsets forward by the growth and re-read the headers; if rodata
grew, shift the data file offset (of the possibly refreshed header); if
the data segment grew, add the growth to the data header's trailing
`other` (.bss size) field.  Shrinkage is never applied. -/
def relocateHeaders (img : Nat → Nat) (tdiff rdiff ddiff : Int) : Nat → Nat :=
  let h0 := get_segments img
  let step1 :=
    if 0 < tdiff then
      let img1 :=
        write_u32 img (SEGMENT_HEADER_SIZE * 2) (h0.rodata.file_offset + tdiff.toNat)
      let img2 :=
        write_u32 img1 (SEGMENT_HEADER_SIZE * 3) (h0.data.file_offset + tdiff.toNat)
      (img2, get_segments img2)
    else (img, h0)
  let img3 :=
    if 0 < rdiff then
      write_u32 step1.1 (SEGMENT_HEADER_SIZE * 3) (step1.2.data.file_offset + rdiff.toNat)
    else step1.1
  if 0 < ddiff then
    write_u32 img3 (SEGMENT_HEADER_SIZE * 3 + 12) (step1.2.data.other + ddiff.toNat)
  else img3

end ASMPatchHandler

theorem write_u32_get (img : Nat → Nat) (o v j : Nat) (hj : j < 4) :
    write_u32 img o v (o + j) = (u32le v).getD j 0 := by
  simp only [write_u32, writeBytesImg]
  rw [u32le_length, if_pos ⟨by omega, by omega⟩]
  congr 1
  omega

theorem readU32_write_u32_eq (img : Nat → Nat) (o v : Nat) :
    readU32 (write_u32 img o v) o = v % 4294967296 := by
  have e0 : write_u32 img o v o = (u32le v).getD 0 0 := by
    have h := write_u32_get img o v 0 (by omega)
    rwa [Nat.add_zero] at h
  have e1 := write_u32_get img o v 1 (by omega)
  have e2 := write_u32_get img o v 2 (by omega)
  have e3 := write_u32_get img o v 3 (by omega)
  rw [readU32, e0, e1, e2, e3]
  simp only [u32le, List.getD_cons_zero, List.getD_cons_succ]
  omega

theorem readU32_writeBytesImg_ne (img : Nat → Nat) (o' : Nat) (p : List Nat) (o : Nat)
    (h : o' + p.length ≤ o ∨ o + 4 ≤ o') :
    readU32 (writeBytesImg img o' p) o = readU32 img o := by
  rw [readU32, readU32]
  simp only [writeBytesImg]
  rw [if_neg (by omega), if_neg (by omega), if_neg (by omega), if_neg (by omega)]

theorem readU32_write_u32_ne (img : Nat → Nat) (o' v o : Nat)
    (h : o' + 4 ≤ o ∨ o + 4 ≤ o') :
    readU32 (write_u32 img o' v) o = readU32 img o := by
  rw [write_u32, readU32_writeBytesImg_ne]
  rw [u32le_length]
  omega

theorem readU32_write_u8_ne (img : Nat → Nat) (o' v o : Nat)
    (h : o' + 1 ≤ o ∨ o + 4 ≤ o') :
    readU32 (write_u8 img o' v) o = readU32 img o := by
  rw [write_u8, readU32_writeBytesImg_ne]
  simp only [List.length_cons, List.length_nil]
  omega

/-- C2: header relocation is growth-only and ordered.  With growth
`tdiff.toNat` (zero when the compressed size shrank or stayed equal), the
relocated rodata file offset is exactly the old one plus the text growth,
the relocated data file offset is the old one plus text growth plus
rodata growth, the data header's trailing `other` field gains exactly the
data growth, and every other header field is unchanged; in particular the
spec's inequalities `file_offset(rodata') ≥ file_offset(rodata) +
growth(text)` and `file_offset(data') ≥ file_offset(data) + growth(text)
+ growth(rodata)` hold.  The fit hypotheses say the shifted values stay
below `2^32`, as the on-disk u32 fields require. -/
theorem relocateHeaders_spec (img : Nat → Nat) (tdiff rdiff ddiff : Int)
    (hro : (ASMPatchHandler.get_segments img).rodata.file_offset + tdiff.toNat <
      4294967296)
    (hda : (ASMPatchHandler.get_segments img).data.file_offset + tdiff.toNat +
      rdiff.toNat < 4294967296)
    (hot : (ASMPatchHandler.get_segments img).data.other + ddiff.toNat < 4294967296) :
    (ASMPatchHandler.get_segments
        (ASMPatchHandler.relocateHeaders img tdiff rdiff ddiff)).rodata.file_offset =
      (ASMPatchHandler.get_segments img).rodata.file_offset + tdiff.toNat ∧
    (ASMPatchHandler.get_segments
        (ASMPatchHandler.relocateHeaders img tdiff rdiff ddiff)).data.file_offset =
      (ASMPatchHandler.get_segments img).data.file_offset + tdiff.toNat + rdiff.toNat ∧
    (ASMPatchHandler.get_segments
        (ASMPatchHandler.relocateHeaders img tdiff rdiff ddiff)).data.other =
      (ASMPatchHandler.get_segments img).data.other + ddiff.toNat ∧
    (ASMPatchHandler.get_segments
        (ASMPatchHandler.relocateHeaders img tdiff rdiff ddiff)).text.file_offset =
      (ASMPatchHandler.get_segments img).text.file_offset ∧
    (ASMPatchHandler.get_segments
        (ASMPatchHandler.relocateHeaders img tdiff rdiff ddiff)).text.decompressed_size =
      (ASMPatchHandler.get_segments img).text.decompressed_size ∧
    (ASMPatchHandler.get_segments
        (ASMPatchHandler.relocateHeaders img tdiff rdiff ddiff)).text.other =
      (ASMPatchHandler.get_segments img).text.other ∧
    (ASMPatchHandler.get_segments
        (ASMPatchHandler.relocateHeaders img tdiff rdiff ddiff)).rodata.decompressed_size =
      (ASMPatchHandler.get_segments img).rodata.decompressed_size ∧
    (ASMPatchHandler.get_segments
        (ASMPatchHandler.relocateHeaders img tdiff rdiff ddiff)).rodata.other =
      (ASMPatchHandler.get_segments img).rodata.other ∧
    (ASMPatchHandler.get_segments
        (ASMPatchHandler.relocateHeaders img tdiff rdiff ddiff)).data.decompressed_size =
      (ASMPatchHandler.get_segments img).data.decompressed_size ∧
    (ASMPatchHandler.get_segments img).rodata.file_offset + tdiff.toNat ≤
      (ASMPatchHandler.get_segments
        (ASMPatchHandler.relocateHeaders img tdiff rdiff ddiff)).rodata.file_offset ∧
    (ASMPatchHandler.get_segments img).data.file_offset + tdiff.toNat + rdiff.toNat ≤
      (ASMPatchHandler.get_segments
        (ASMPatchHandler.relocateHeaders img tdiff rdiff ddiff)).data.file_offset := by
  simp only [ASMPatchHandler.get_segments, readSegmentHeader, SEGMENT_HEADER_SIZE]
    at hro hda hot ⊢
  simp only [ASMPatchHandler.relocateHeaders, ASMPatchHandler.get_segments,
    readSegmentHeader, SEGMENT_HEADER_SIZE]
  split_ifs <;>
    simp (disch := omega) only [readU32_write_u32_ne, readU32_write_u32_eq, true_and,
      and_true, and_self, eq_self_iff_true, le_refl] <;>
    omega

/-- Witness for C2 at a concrete image and concrete growth amounts. -/
theorem relocateHeaders_spec_witness :
    (ASMPatchHandler.get_segments
        (ASMPatchHandler.relocateHeaders (fun _ => 0) 2 3 4)).data.file_offset =
      (ASMPatchHandler.get_segments (fun _ => 0)).data.file_offset +
        (2 : Int).toNat + (3 : Int).toNat :=
  (relocateHeaders_spec (fun _ => 0) 2 3 4 (by decide) (by decide) (by decide)).2.1

/-- Modelled from the spec: `constants.asmconstants.COMPRESSED_SEGMENT_NSO_OFFSET`,
the fixed container offset of the three consecutive little-endian u32
compressed-size fields (0x60 in the NSO header). -/
def COMPRESSED_SEGMENT_NSO_OFFSET : Nat := 96

/-- Modelled from the spec: `constants.asmconstants.NSO_FLAGS_OFFSET`, the
fixed offset of the container flags field (0xC in the NSO header). -/
def NSO_FLAGS_OFFSET : Nat := 12

namespace ASMPatchHandler

/-- The output-writing tail of `patch_asm`: re-read the (possibly
relocated) headers, write each recompressed segment payload at its
header's file offset, overwrite the three compressed-size fields with the
actual new lengths, and store 0x7 to the flags field so segment hashes
are not checked. -/
def writeOutput (img : Nat → Nat) (t r d : List Nat) : Nat → Nat :=
  let h := get_segments img
  let img1 := writeBytesImg img h.text.file_offset t
  let img2 := writeBytesImg img1 h.rodata.file_offset r
  let img3 := writeBytesImg img2 h.data.file_offset d
  let img4 := write_u32 img3 COMPRESSED_SEGMENT_NSO_OFFSET t.length
  let img5 := write_u32 img4 (COMPRESSED_SEGMENT_NSO_OFFSET + 4) r.length
  let img6 := write_u32 img5 (COMPRESSED_SEGMENT_NSO_OFFSET + 8) d.length
  write_u8 img6 NSO_FLAGS_OFFSET 7

/-- The tail of `patch_asm` after the diffs are applied and the segments
recompressed: relocate headers by the compressed-size differences, then
write the output image. -/
def patch_asm_relink (img : Nat → Nat) (oldT oldR oldD : Nat) (t r d : List Nat) :
    Nat → Nat :=
  writeOutput
    (relocateHeaders img ((t.length : Int) - (oldT : Int))
      ((r.length : Int) - (oldR : Int)) ((d.length : Int) - (oldD : Int))) t r d

end ASMPatchHandler

/-- C8: in the container image the patcher writes, each of the three u32
compressed-size fields at the fixed container offset equals the exact
byte length of the corresponding recompressed segment payload written
into the image (the hypotheses say each length fits the u32 field). -/
theorem compressed_size_fields (img : Nat → Nat) (oldT oldR oldD : Nat) (t r d : List Nat)
    (ht : t.length < 4294967296) (hr : r.length < 4294967296)
    (hd : d.length < 4294967296) :
    readU32 (ASMPatchHandler.patch_asm_relink img oldT oldR oldD t r d)
        COMPRESSED_SEGMENT_NSO_OFFSET = t.length ∧
    readU32 (ASMPatchHandler.patch_asm_relink img oldT oldR oldD t r d)
        (COMPRESSED_SEGMENT_NSO_OFFSET + 4) = r.length ∧
    readU32 (ASMPatchHandler.patch_asm_relink img oldT oldR oldD t r d)
        (COMPRESSED_SEGMENT_NSO_OFFSET + 8) = d.length := by
  simp only [ASMPatchHandler.patch_asm_relink, ASMPatchHandler.writeOutput,
    COMPRESSED_SEGMENT_NSO_OFFSET, NSO_FLAGS_OFFSET]
  simp (disch := omega) only [readU32_write_u8_ne, readU32_write_u32_ne,
    readU32_write_u32_eq]
  omega

/-- Witness for C8 at a concrete image and concrete payloads. -/
theorem compressed_size_fields_witness :
    readU32 (ASMPatchHandler.patch_asm_relink (fun _ => 0) 0 0 0 [1] [2, 2] [])
        COMPRESSED_SEGMENT_NSO_OFFSET = 1 :=
  (compressed_size_fields (fun _ => 0) 0 0 0 [1] [2, 2] [] (by decide) (by decide)
    (by decide)).1

/-! ## Start-flags assembler -/

/-- One entry of a flag section of the startflags file: a plain integer
flag, or a one-key mapping from a condition name to a list of flags
(`type(flag) is not int` in `_get_flags`). -/
inductive FlagEntry where
  | flag (n : Nat)
  | onlyif (condition : String) (flags : List Nat)
deriving Repr, DecidableEq

/-- A value of the static item→flags tables: a single integer flag, a
per-unit list, or an always-emitted tuple.  Python falsiness of the value
(`0`, `[]`, `()`) is `TableVal.falsy`. -/
inductive TableVal where
  | int (n : Nat)
  | list (l : List Nat)
  | tup (l : List Nat)
deriving Repr, DecidableEq

/-- Python falsiness of a table value: `0`, the empty list and the empty
tuple are falsy. -/
def TableVal.falsy : TableVal → Bool
  | .int n => n == 0
  | .list l => l.isEmpty
  | .tup l => l.isEmpty

/-- Modelled from the spec: the static lookup tables consumed by
`patch_startflags` (`constants.itemconstants.ITEM_ITEMFLAGS`,
`ITEM_STORYFLAGS`, `ITEM_COUNTS` and
`constants.asmconstants.SCENE_NAME_TO_SCENE_INDEX`), abstracted as finite
lookups; `none` models a missing entry, which `dict.get(name, False)`
turns into the falsy `False` for the three item tables while
`dict[scene]` raises `KeyError` for the scene table. -/
structure StaticTables where
  ITEM_ITEMFLAGS : String → Option TableVal
  ITEM_STORYFLAGS : String → Option TableVal
  ITEM_COUNTS : String → Option (List Nat)
  SCENE_NAME_TO_SCENE_INDEX : String → Option Nat

namespace ASMPatchHandler

/-- The item-flag / story-flag contribution of one inventory item in
`patch_startflags`: look the item up with `dict.get(name, False)`, skip a
falsy value, then append one list entry per unit held (a count beyond
the list raises `IndexError`), every tuple entry regardless of count, or
the single integer flag. -/
def appendItemFlags (tbl : String → Option TableVal) (name : String) (count : Nat)
    (acc : List FlagEntry) : Except String (List FlagEntry) :=
  match tbl name with
  | none => .ok acc
  | some v =>
    if v.falsy then .ok acc
    else
      match v with
      | .int n => .ok (acc ++ [.flag n])
      | .list l =>
        if count ≤ l.length then .ok (acc ++ (l.take count).map .flag)
        else .error "IndexError"
      | .tup l => .ok (acc ++ l.map .flag)

/-- `start_counts[counter] += v` on the running `Counter`: add to an
existing key in place, or append a new key (dict insertion order). -/
def addCounter (counts : List (Nat × Nat)) (k v : Nat) : List (Nat × Nat) :=
  if counts.any (fun p => p.1 == k) then
    counts.map (fun p => if p.1 == k then (p.1, p.2 + v) else p)
  else counts ++ [(k, v)]

/-- The counter contribution of one inventory item in `patch_startflags`:
a falsy (missing or empty) `ITEM_COUNTS` value is skipped; otherwise the
value is destructured as the `(counter, amount, maximum)` triple and
`amount * min(maximum, count)` is accumulated. -/
def applyCounts (tbl : String → Option (List Nat)) (name : String) (count : Nat)
    (counts : List (Nat × Nat)) : Except String (List (Nat × Nat)) :=
  match tbl name with
  | none => .ok counts
  | some [] => .ok counts
  | some [c, a, m] => .ok (addCounter counts c (a * min m count))
  | some _ => .error "ValueError"

/-- The inventory loop of `patch_startflags` over
`world.starting_item_pool`: item flags, then story flags, then counters,
threading the growing sections. -/
def accumulateInventory (tbls : StaticTables) :
    List (String × Nat) → List FlagEntry × List FlagEntry × List (Nat × Nat) →
    Except String (List FlagEntry × List FlagEntry × List (Nat × Nat))
  | [], acc => .ok acc
  | item :: rest, acc =>
    match appendItemFlags tbls.ITEM_ITEMFLAGS item.1 item.2 acc.1 with
    | .error e => .error e
    | .ok itemAcc =>
      match appendItemFlags tbls.ITEM_STORYFLAGS item.1 item.2 acc.2.1 with
      | .error e => .error e
      | .ok storyAcc =>
        match applyCounts tbls.ITEM_COUNTS item.1 item.2 acc.2.2 with
        | .error e => .error e
        | .ok countAcc => accumulateInventory tbls rest (itemAcc, storyAcc, countAcc)

/-- `ASMPatchHandler._get_flags`: resolve one flag section, keeping plain
integer flags and, for a conditional entry, its flags exactly when the
Condition Gate accepts the condition. -/
def get_flags (sec : List FlagEntry) (gate : String → Bool) : List Nat :=
  sec.foldl
    (fun flags e =>
      match e with
      | .flag n => flags ++ [n]
      | .onlyif condition fs => if gate condition then flags ++ fs else flags)
    []

/-- The inner loop of a scene-keyed section: each resolved flag is packed
as the `(scene_index, flag)` byte pair via
`SCENE_NAME_TO_SCENE_INDEX[scene]`; a missing scene raises `KeyError`,
and only when at least one flag is emitted for it. -/
def sceneFlagsWrite (lookup : Option Nat) (flags : List Nat) (acc : List Nat) :
    Except String (List Nat) :=
  match flags with
  | [] => .ok acc
  | f :: fs =>
    match lookup with
    | some idx => sceneFlagsWrite lookup fs (acc ++ [idx % 256, f % 256])
    | none => .error "KeyError"

/-- A scene-keyed section (`Sceneflags` / `Dungeonflags`) of
`patch_startflags`, serialized scene by scene in order. -/
def sceneSection (tbls : StaticTables) (gate : String → Bool) :
    List (String × List FlagEntry) → List Nat → Except String (List Nat)
  | [], acc => .ok acc
  | sc :: rest, acc =>
    match sceneFlagsWrite (tbls.SCENE_NAME_TO_SCENE_INDEX sc.1) (get_flags sc.2 gate) acc with
    | .error e => .error e
    | .ok acc2 => sceneSection tbls gate rest acc2

/-- The startflags blob of `patch_startflags`: story flags as
little-endian u16 then the `FFFF` sentinel, scene pairs then `FFFF`,
item flags as u16 then `FFFF`, dungeon pairs then `FFFF`. -/
def buildFlagsBlob (tbls : StaticTables) (gate : String → Bool)
    (storyflags : List FlagEntry) (sceneflags : List (String × List FlagEntry))
    (itemflags : List FlagEntry) (dungeonflags : List (String × List FlagEntry)) :
    Except String (List Nat) :=
  let b1 := (get_flags storyflags gate).foldl (fun b f => b ++ u16le f) []
  match sceneSection tbls gate sceneflags (b1 ++ [255, 255]) with
  | .error e => .error e
  | .ok b3 =>
    let b5 := (get_flags itemflags gate).foldl (fun b f => b ++ u16le f) (b3 ++ [255, 255])
    match sceneSection tbls gate dungeonflags (b5 ++ [255, 255]) with
    | .error e => .error e
    | .ok b7 => .ok (b7 ++ [255, 255])

/-- The start-counts blob: `(counter, amount)` little-endian u16 pairs in
accumulation order, then the 4-byte `FFFFFFFF` sentinel. -/
def buildCountsBlob (counts : List (Nat × Nat)) : List Nat :=
  counts.foldl (fun b p => b ++ u16le p.1 ++ u16le p.2) [] ++ [255, 255, 255, 255]

end ASMPatchHandler

/-- Modelled from the spec: `SUBSDK_STARTFLAG_OFFSET`, the fixed relative
address the startflags blob is injected at (representative value; the
claims only need it to be a fixed constant distinct from the counts
address). -/
def SUBSDK_STARTFLAG_OFFSET : Nat := 4096

/-- Modelled from the spec: `SUBSDK_START_COUNTS_OFFSET`, the fixed
relative address of the start-counts blob (representative value). -/
def SUBSDK_START_COUNTS_OFFSET : Nat := 8192

/-- The observable outcome of one `patch_startflags` call: an exception
raised before anything is written, the diff yaml written and then the
capacity assertion raised, or success with the written diff file. -/
inductive StartflagsOutcome where
  | error (msg : String)
  | wroteThenAssertFailed (written : List (Nat × List Nat))
  | success (written : List (Nat × List Nat))
deriving Repr, DecidableEq

namespace ASMPatchHandler

/-- `ASMPatchHandler.patch_startflags`: accumulate the starting inventory
into the flag sections and counters, serialize the startflags and counts
blobs, write the diff yaml mapping the two fixed offsets to the blobs'
byte lists — and only after writing assert that the startflags blob is
strictly below the capacity `MAX_STARTFLAGS` (the capacity is passed as a
parameter so the behaviour is proved for every value of the constant). -/
def patch_startflags (MAX_STARTFLAGS : Nat) (tbls : StaticTables)
    (gate : String → Bool) (storyflags : List FlagEntry)
    (sceneflags : List (String × List FlagEntry)) (itemflags : List FlagEntry)
    (dungeonflags : List (String × List FlagEntry)) (pool : List (String × Nat)) :
    StartflagsOutcome :=
  match accumulateInventory tbls pool (itemflags, storyflags, []) with
  | .error e => .error e
  | .ok acc =>
    match buildFlagsBlob tbls gate acc.2.1 sceneflags acc.1 dungeonflags with
    | .error e => .error e
    | .ok blob =>
      let written := [(SUBSDK_STARTFLAG_OFFSET, blob),
        (SUBSDK_START_COUNTS_OFFSET, buildCountsBlob acc.2.2)]
      if blob.length < MAX_STARTFLAGS then .success written
      else .wroteThenAssertFailed written

end ASMPatchHandler

example : ASMPatchHandler.patch_startflags 100
    ⟨fun _ => none, fun _ => none, fun _ => none, fun _ => none⟩
    (fun _ => false) [] [] [] [] [] =
    .success [(SUBSDK_STARTFLAG_OFFSET, [255, 255, 255, 255, 255, 255, 255, 255]),
      (SUBSDK_START_COUNTS_OFFSET, [255, 255, 255, 255])] := by decide

example : ASMPatchHandler.patch_startflags 100
    ⟨fun n => if n = "Bomb" then some (.list [10, 11]) else
        if n = "Bow" then some (.int 5) else none,
      fun _ => none, fun _ => none, fun _ => none⟩
    (fun _ => false) [] [] [] [] [("Bow", 1), ("Bomb", 2)] =
    .success [(SUBSDK_STARTFLAG_OFFSET,
        [255, 255, 255, 255, 5, 0, 10, 0, 11, 0, 255, 255, 255, 255]),
      (SUBSDK_START_COUNTS_OFFSET, [255, 255, 255, 255])] := by decide

/-- C4 counterexample: with capacity 4, the empty inventory's blob (the
four 2-byte sentinels, 8 bytes) meets the capacity limit and the
assertion fires — yet the diff yaml has already been written with both
blobs: the claim's "produces no written output" is false on the code,
which calls `yaml_write` before the capacity assert. -/
theorem patch_startflags_capacity_counterexample :
    4 ≤ ([255, 255, 255, 255, 255, 255, 255, 255] : List Nat).length ∧
    ASMPatchHandler.patch_startflags 4
        ⟨fun _ => none, fun _ => none, fun _ => none, fun _ => none⟩
        (fun _ => false) [] [] [] [] [] =
      .wroteThenAssertFailed
        [(SUBSDK_STARTFLAG_OFFSET, [255, 255, 255, 255, 255, 255, 255, 255]),
         (SUBSDK_START_COUNTS_OFFSET, [255, 255, 255, 255])] := by decide

/-- C4 (amended): when the assembled flag sections reach or exceed the
capacity constant, `patch_startflags` raises the capacity assertion and
produces no further output — but the start-flags diff yaml itself has by
then already been written, holding exactly the assembled blobs, because
the code writes the file before the assert. -/
theorem patch_startflags_capacity (MAX_STARTFLAGS : Nat) (tbls : StaticTables)
    (gate : String → Bool) (storyflags : List FlagEntry)
    (sceneflags : List (String × List FlagEntry)) (itemflags : List FlagEntry)
    (dungeonflags : List (String × List FlagEntry)) (pool : List (String × Nat))
    (acc : List FlagEntry × List FlagEntry × List (Nat × Nat)) (blob : List Nat)
    (hacc : ASMPatchHandler.accumulateInventory tbls pool (itemflags, storyflags, []) =
      .ok acc)
    (hblob : ASMPatchHandler.buildFlagsBlob tbls gate acc.2.1 sceneflags acc.1
      dungeonflags = .ok blob)
    (hcap : MAX_STARTFLAGS ≤ blob.length) :
    ASMPatchHandler.patch_startflags MAX_STARTFLAGS tbls gate storyflags sceneflags
        itemflags dungeonflags pool =
      .wroteThenAssertFailed [(SUBSDK_STARTFLAG_OFFSET, blob),
        (SUBSDK_START_COUNTS_OFFSET, ASMPatchHandler.buildCountsBlob acc.2.2)] := by
  simp only [ASMPatchHandler.patch_startflags, hacc, hblob]
  rw [if_neg (by omega)]

/-- Witness for the amended C4 at a concrete over-capacity input. -/
theorem patch_startflags_capacity_witness :
    ASMPatchHandler.patch_startflags 4
        ⟨fun _ => none, fun _ => none, fun _ => none, fun _ => none⟩
        (fun _ => false) [] [] [] [] [] =
      .wroteThenAssertFailed
        [(SUBSDK_STARTFLAG_OFFSET, [255, 255, 255, 255, 255, 255, 255, 255]),
         (SUBSDK_START_COUNTS_OFFSET, [255, 255, 255, 255])] :=
  patch_startflags_capacity 4
    ⟨fun _ => none, fun _ => none, fun _ => none, fun _ => none⟩
    (fun _ => false) [] [] [] [] [] ([], [], [])
    [255, 255, 255, 255, 255, 255, 255, 255] rfl rfl (by decide)

/-- C10: an item whose value in the item-flag, story-flag, or counter
table is falsy (the integer `0`, an empty list, or an empty tuple) — or
missing entirely, which `dict.get(name, False)` makes indistinguishable
from falsy — contributes no flags and no counter amounts from that
table. -/
theorem falsy_table_values_contribute_nothing (tbl : String → Option TableVal)
    (ctbl : String → Option (List Nat)) (name : String) (count : Nat)
    (acc : List FlagEntry) (counts : List (Nat × Nat))
    (hfalsy : ∀ v, tbl name = some v → v.falsy = true)
    (hcf : ctbl name = none ∨ ctbl name = some []) :
    ASMPatchHandler.appendItemFlags tbl name count acc = .ok acc ∧
    ASMPatchHandler.applyCounts ctbl name count counts = .ok counts := by
  constructor
  · cases h : tbl name with
    | none => simp [ASMPatchHandler.appendItemFlags, h]
    | some v => simp [ASMPatchHandler.appendItemFlags, h, hfalsy v h]
  · rcases hcf with h | h <;> simp [ASMPatchHandler.applyCounts, h]

/-- Witness for C10: a `0` item flag, and an empty counter tuple. -/
theorem falsy_table_values_contribute_nothing_witness :
    ASMPatchHandler.appendItemFlags (fun _ => some (.int 0)) "Bomb" 3
        [FlagEntry.flag 7] = .ok [FlagEntry.flag 7] ∧
    ASMPatchHandler.applyCounts (fun _ => some []) "Bomb" 3 [(1, 2)] = .ok [(1, 2)] :=
  falsy_table_values_contribute_nothing (fun _ => some (.int 0)) (fun _ => some [])
    "Bomb" 3 [FlagEntry.flag 7] [(1, 2)]
    (fun v h => by injection h with h2; rw [← h2]; rfl) (Or.inr rfl)

/-! ## The spec-side serialization layout (for the refinement claim C5) -/

/-- The spec's serialization of the four flag sections (§4.4 step 3): in
this exact order, each section followed by its sentinel — story flags as
little-endian u16, `0xFFFF`; scene `(scene_index, flag)` byte pairs,
`0xFFFF`; item flags as u16, `0xFFFF`; dungeon pairs, `0xFFFF`.  (`u16le`
packs mod `2^16`; `struct.pack` would reject larger values outright, and
pair components are u8.) -/
def specFlagSections (story : List Nat) (scene : List (Nat × Nat)) (item : List Nat)
    (dungeon : List (Nat × Nat)) : List Nat :=
  (story.map u16le).flatten ++ [255, 255] ++
    (scene.map (fun p => [p.1 % 256, p.2 % 256])).flatten ++ [255, 255] ++
    (item.map u16le).flatten ++ [255, 255] ++
    (dungeon.map (fun p => [p.1 % 256, p.2 % 256])).flatten ++ [255, 255]

/-- The spec's counter section: `(counter_id, amount)` little-endian u16
pairs followed by the 4-byte `0xFFFFFFFF` sentinel. -/
def specCounterSection (counts : List (Nat × Nat)) : List Nat :=
  (counts.map (fun p => u16le p.1 ++ u16le p.2)).flatten ++ [255, 255, 255, 255]

/-- The `(scene_index, flag)` pair view of a scene-keyed section: each
scene's resolved flags paired with the scene's index. -/
def specScenePairs (tbls : StaticTables) (gate : String → Bool)
    (scenes : List (String × List FlagEntry)) : List (Nat × Nat) :=
  scenes.flatMap fun sc =>
    (ASMPatchHandler.get_flags sc.2 gate).map
      fun f => ((tbls.SCENE_NAME_TO_SCENE_INDEX sc.1).getD 0, f)

theorem foldl_u16_append (flags : List Nat) (init : List Nat) :
    flags.foldl (fun b f => b ++ u16le f) init = init ++ (flags.map u16le).flatten := by
  induction flags generalizing init with
  | nil => simp
  | cons f fs ih => simp [ih, List.append_assoc]

theorem foldl_counts_append (counts : List (Nat × Nat)) (init : List Nat) :
    counts.foldl (fun b p => b ++ u16le p.1 ++ u16le p.2) init =
      init ++ (counts.map (fun p => u16le p.1 ++ u16le p.2)).flatten := by
  induction counts generalizing init with
  | nil => simp
  | cons c cs ih =>
    rw [List.foldl_cons, ih]
    simp [List.append_assoc]

theorem sceneFlagsWrite_some (idx : Nat) (flags acc : List Nat) :
    ASMPatchHandler.sceneFlagsWrite (some idx) flags acc =
      .ok (acc ++ (flags.map (fun f => [idx % 256, f % 256])).flatten) := by
  induction flags generalizing acc with
  | nil => simp [ASMPatchHandler.sceneFlagsWrite]
  | cons f fs ih => simp [ASMPatchHandler.sceneFlagsWrite, ih, List.append_assoc]

theorem sceneSection_spec (tbls : StaticTables) (gate : String → Bool) :
    ∀ (scenes : List (String × List FlagEntry)),
      (∀ sc ∈ scenes, (tbls.SCENE_NAME_TO_SCENE_INDEX sc.1).isSome = true ∨
        ASMPatchHandler.get_flags sc.2 gate = []) →
      ∀ acc, ASMPatchHandler.sceneSection tbls gate scenes acc =
        .ok (acc ++ ((specScenePairs tbls gate scenes).map
          (fun p => [p.1 % 256, p.2 % 256])).flatten) := by
  intro scenes
  induction scenes with
  | nil =>
    intro _ acc
    simp [ASMPatchHandler.sceneSection, specScenePairs]
  | cons sc rest ih =>
    intro hsc acc
    have htail := ih fun s hmem => hsc s (List.mem_cons_of_mem sc hmem)
    rcases hsc sc (List.mem_cons_self sc rest) with hs | hempty
    · obtain ⟨idx, hidx⟩ := Option.isSome_iff_exists.mp hs
      have h1 : ASMPatchHandler.sceneSection tbls gate (sc :: rest) acc =
          ASMPatchHandler.sceneSection tbls gate rest
            (acc ++ ((ASMPatchHandler.get_flags sc.2 gate).map
              (fun f => [idx % 256, f % 256])).flatten) := by
        rw [ASMPatchHandler.sceneSection, hidx, sceneFlagsWrite_some]
      rw [h1, htail]
      simp [specScenePairs, hidx, List.append_assoc, List.map_map, Function.comp]
      rfl
    · have h1 : ASMPatchHandler.sceneSection tbls gate (sc :: rest) acc =
          ASMPatchHandler.sceneSection tbls gate rest acc := by
        rw [ASMPatchHandler.sceneSection, hempty]
        rfl
      rw [h1, htail]
      simp [specScenePairs, hempty]

/-- C5: the startflags blob the assembler serializes is exactly the
spec's layout — story u16s then `0xFFFF`, scene `(scene_index, flag)`
pairs then `0xFFFF`, item u16s then `0xFFFF`, dungeon pairs then
`0xFFFF` — and, separately, the counter blob is the `(counter_id,
amount)` u16 pairs followed by `0xFFFFFFFF`.  The hypotheses say every
scene that emits a flag has a scene index (otherwise serialization
raises, claim C9). -/
theorem startflags_serialization (tbls : StaticTables) (gate : String → Bool)
    (storyflags : List FlagEntry) (sceneflags : List (String × List FlagEntry))
    (itemflags : List FlagEntry) (dungeonflags : List (String × List FlagEntry))
    (counts : List (Nat × Nat))
    (hsc : ∀ sc ∈ sceneflags, (tbls.SCENE_NAME_TO_SCENE_INDEX sc.1).isSome = true ∨
      ASMPatchHandler.get_flags sc.2 gate = [])
    (hdg : ∀ sc ∈ dungeonflags, (tbls.SCENE_NAME_TO_SCENE_INDEX sc.1).isSome = true ∨
      ASMPatchHandler.get_flags sc.2 gate = []) :
    ASMPatchHandler.buildFlagsBlob tbls gate storyflags sceneflags itemflags
        dungeonflags =
      .ok (specFlagSections (ASMPatchHandler.get_flags storyflags gate)
        (specScenePairs tbls gate sceneflags)
        (ASMPatchHandler.get_flags itemflags gate)
        (specScenePairs tbls gate dungeonflags)) ∧
    ASMPatchHandler.buildCountsBlob counts = specCounterSection counts := by
  constructor
  · simp only [ASMPatchHandler.buildFlagsBlob]
    rw [foldl_u16_append, sceneSection_spec tbls gate sceneflags hsc]
    simp only [foldl_u16_append, sceneSection_spec tbls gate dungeonflags hdg]
    simp [specFlagSections, List.append_assoc]
  · rw [ASMPatchHandler.buildCountsBlob, foldl_counts_append]
    simp [specCounterSection]

/-- Witness for C5 at a concrete populated input. -/
theorem startflags_serialization_witness :
    ASMPatchHandler.buildFlagsBlob
        ⟨fun _ => none, fun _ => none, fun _ => none, fun _ => some 3⟩
        (fun _ => true) [FlagEntry.flag 513] [("Faron Woods", [FlagEntry.flag 7])]
        [FlagEntry.onlyif "cond_a" [5]] [] =
      .ok (specFlagSections [513] [(3, 7)] [5] []) ∧
    ASMPatchHandler.buildCountsBlob [(2, 300)] = specCounterSection [(2, 300)] :=
  startflags_serialization
    ⟨fun _ => none, fun _ => none, fun _ => none, fun _ => some 3⟩
    (fun _ => true) [FlagEntry.flag 513] [("Faron Woods", [FlagEntry.flag 7])]
    [FlagEntry.onlyif "cond_a" [5]] [] [(2, 300)]
    (fun sc hmem => Or.inl (by cases hmem with
      | head => rfl
      | tail _ h => cases h))
    (fun sc hmem => by cases hmem)

/-- C9 counterexample: an item missing from all three item tables is
silently skipped — `dict.get(name, False)` turns the missing entry into
the falsy `False` — so `patch_startflags` succeeds instead of failing
fatally, refuting the claim for the item→item-flags, item→story-flags and
item→counter tables. -/
theorem patch_startflags_missing_item_counterexample :
    ASMPatchHandler.patch_startflags 100
        ⟨fun _ => none, fun _ => none, fun _ => none, fun _ => none⟩
        (fun _ => false) [] [] [] [] [("Missing Item", 2)] =
      .success [(SUBSDK_STARTFLAG_OFFSET, [255, 255, 255, 255, 255, 255, 255, 255]),
        (SUBSDK_START_COUNTS_OFFSET, [255, 255, 255, 255])] := by decide

theorem sceneSection_missing_scene (tbls : StaticTables) (gate : String → Bool) :
    ∀ (scenes : List (String × List FlagEntry)),
      (∃ sc ∈ scenes, tbls.SCENE_NAME_TO_SCENE_INDEX sc.1 = none ∧
        ASMPatchHandler.get_flags sc.2 gate ≠ []) →
      ∀ acc, ∃ e, ASMPatchHandler.sceneSection tbls gate scenes acc = .error e := by
  intro scenes
  induction scenes with
  | nil =>
    intro hbad
    obtain ⟨b, hmem, -⟩ := hbad
    cases hmem
  | cons sc rest ih =>
    intro hbad acc
    obtain ⟨b, hmem, hnone, hne⟩ := hbad
    rcases List.mem_cons.mp hmem with heq | hmem2
    · subst heq
      cases hflags : ASMPatchHandler.get_flags b.2 gate with
      | nil => exact absurd hflags hne
      | cons f fs =>
        refine ⟨"KeyError", ?_⟩
        rw [ASMPatchHandler.sceneSection, hflags, hnone]
        rfl
    · cases hres : ASMPatchHandler.sceneFlagsWrite (tbls.SCENE_NAME_TO_SCENE_INDEX sc.1)
          (ASMPatchHandler.get_flags sc.2 gate) acc with
      | error e =>
        refine ⟨e, ?_⟩
        rw [ASMPatchHandler.sceneSection, hres]
      | ok acc2 =>
        obtain ⟨e, he⟩ := ih ⟨b, hmem2, hnone, hne⟩ acc2
        refine ⟨e, ?_⟩
        rw [ASMPatchHandler.sceneSection, hres]
        exact he

/-- C9 (amended): only the scene→scene-index lookup is a required static
table: a scene in the scene-flags section whose name is missing from
`SCENE_NAME_TO_SCENE_INDEX` and which emits at least one flag makes
`patch_startflags` raise (`KeyError`) before any output is written,
whereas items missing from the item→item-flags, item→story-flags or
item→counter tables are silently skipped. -/
theorem patch_startflags_missing_scene (MAX_STARTFLAGS : Nat) (tbls : StaticTables)
    (gate : String → Bool) (storyflags : List FlagEntry)
    (sceneflags : List (String × List FlagEntry)) (itemflags : List FlagEntry)
    (dungeonflags : List (String × List FlagEntry)) (pool : List (String × Nat))
    (acc : List FlagEntry × List FlagEntry × List (Nat × Nat))
    (hacc : ASMPatchHandler.accumulateInventory tbls pool (itemflags, storyflags, []) =
      .ok acc)
    (hbad : ∃ sc ∈ sceneflags, tbls.SCENE_NAME_TO_SCENE_INDEX sc.1 = none ∧
      ASMPatchHandler.get_flags sc.2 gate ≠ []) :
    ∃ e, ASMPatchHandler.patch_startflags MAX_STARTFLAGS tbls gate storyflags
      sceneflags itemflags dungeonflags pool = .error e := by
  obtain ⟨e, he⟩ := sceneSection_missing_scene tbls gate sceneflags hbad
    ((ASMPatchHandler.get_flags acc.2.1 gate).foldl (fun b f => b ++ u16le f) [] ++
      [255, 255])
  refine ⟨e, ?_⟩
  have hblob : ASMPatchHandler.buildFlagsBlob tbls gate acc.2.1 sceneflags acc.1
      dungeonflags = .error e := by
    simp only [ASMPatchHandler.buildFlagsBlob, he]
  simp only [ASMPatchHandler.patch_startflags, hacc, hblob]

/-- Witness for the amended C9: a scene missing from the index table with
one emitted flag aborts the assembly. -/
theorem patch_startflags_missing_scene_witness :
    ∃ e, ASMPatchHandler.patch_startflags 100
        ⟨fun _ => none, fun _ => none, fun _ => none, fun _ => none⟩
        (fun _ => true) [] [("Bad Scene", [FlagEntry.flag 1])] [] [] [] = .error e :=
  patch_startflags_missing_scene 100
    ⟨fun _ => none, fun _ => none, fun _ => none, fun _ => none⟩
    (fun _ => true) [] [("Bad Scene", [FlagEntry.flag 1])] [] [] [] ([], [], []) rfl
    ⟨("Bad Scene", [FlagEntry.flag 1]), List.mem_singleton.mpr rfl, rfl, by decide⟩

end SshdRando
